import Mathlib

/-!
Verification of the session admission and debounce-aggregation scheduler of
astrbot_plugin_astrmaimai.

The development shallowly embeds the relevant Python modules:

* `judgeEvaluate`        — astrmai/Heart/judge.py, Judge.evaluate
* `applyPassiveDecay`    — core/state_manager.py, StateManager._apply_passive_decay
* `CStep` / `CReach`     — features/maintenance_task.py,
                           MaintenanceTask._process_cache_maintenance, as a
                           transition system around one session's cache entry
* `debounceState` etc.   — astrmai/Heart/attention.py, AttentionGate._wait_and_process
                           (the polling debounce loop)
* `GStep` / `GReach`     — astrmai/Heart/attention.py, AttentionGate.process_event and
                           _wait_and_process, as an asyncio-level transition system
* `MStep` / `MReach`     — core/mind_scheduler.py, MindScheduler.dispatch and
                           run_thinking_loop, as an asyncio-level transition system

Python floats are embedded as rationals, message payloads as numeric identifiers.
In the transition systems one step is one maximal atomic block of Python code
between two suspension points (`await` / task completion), which is the unit of
interleaving under cooperative asyncio scheduling.
-/

/-! ## Judge (astrmai/Heart/judge.py)

`BrainActionPlan` from astrmai/infra/datamodels.py.  The fields `confidence` and
`meta` are never read or written by `Judge.evaluate` and are omitted. -/

structure BrainActionPlan where
  action : String
  thought : String
  relevance : Int
  necessity : Int
deriving DecidableEq, Repr

/-- Dataclass defaults: action "IGNORE", thought "...", relevance 0, necessity 0. -/
def defaultPlan : BrainActionPlan :=
  { action := "IGNORE", thought := "...", relevance := 0, necessity := 0 }

/-- Fields of `AstrMaiConfig` read by `Judge.evaluate` (config.py):
`energy.min_reply_threshold` and `system1.wakeup_words`. -/
structure JudgeConfig where
  min_reply_threshold : ℚ
  wakeup_words : List String

/-- Outcome of the external-classifier call as judge.py observes it.
`gateway.call_judge` (gateway.py lines 30-72) never raises: a missing provider,
an LLM error or timeout, an empty response and unrepairable JSON are all caught
(with retries) and the call finally returns the empty dict.  judge.py then
reads the returned dict: `result.get("action", "IGNORE").upper()`,
`int(result.get("relevance", 0))` and `int(result.get("necessity", 0))`; these
reads either produce an action string and two integers or raise a type error on
a value of the wrong shape, which is the only way into judge.py's except. -/
inductive JudgeCall where
  /-- call_judge caught every attempt's failure and returned the empty dict:
  the key reads then yield the defaults "IGNORE", 0, 0. -/
  | gatewayFailure
  /-- call_judge returned a dict whose reads succeeded: the uppercased action
  value and the two parsed scores. -/
  | response (raction : String) (rrelevance : Int) (rnecessity : Int)
  /-- call_judge returned a dict whose reads raised (a value of the wrong
  type), landing in judge.py's except branch at lines 72-74. -/
  | malformed

/-- Judge.evaluate (judge.py lines 20-76).  Returns the produced plan together
with a flag recording whether the external classifier (gateway.call_judge) was
invoked.  The session mood only feeds the classifier prompt text and does not
influence the control flow, so it is not a parameter. -/
def judgeEvaluate (cfg : JudgeConfig) (energy : ℚ) (message : String)
    (is_force_wakeup : Bool) (classifier : JudgeCall) :
    BrainActionPlan × Bool :=
  -- 1. energy hard limit
  if energy < cfg.min_reply_threshold ∧ is_force_wakeup = false then
    ({ action := "IGNORE", thought := "能量耗尽", relevance := 0, necessity := 0 }, false)
  -- 2. forced wakeup passes directly
  else if is_force_wakeup = true then
    ({ action := "REPLY", thought := "受到强唤醒", relevance := 10, necessity := 10 }, false)
  -- 3. wakeup-word shortcut on the head of the stripped, lowercased message
  else
    match cfg.wakeup_words.find? (fun kw => (message.trim.toLower).startsWith kw.toLower) with
    | some kw =>
        ({ action := "REPLY", thought := "命中唤醒词 [" ++ kw ++ "]",
           relevance := 10, necessity := 9 }, false)
    | none =>
        -- 4. three-state LLM call
        match classifier with
        | .gatewayFailure =>
            -- call_judge returned the empty dict: the defaults "IGNORE", 0, 0
            -- pass the membership validation unchanged
            ({ action := "IGNORE", thought := "...", relevance := 0, necessity := 0 }, true)
        | .response a r n =>
            ({ action := if a = "REPLY" ∨ a = "WAIT" ∨ a = "IGNORE" then a else "IGNORE",
               thought := "...", relevance := r, necessity := n }, true)
        | .malformed =>
            -- except branch (line 74): plan.action = "REPLY", other fields default
            ({ defaultPlan with action := "REPLY" }, true)

/-! ## Passive energy recovery (core/state_manager.py) -/

/-- StateManager._apply_passive_decay (state_manager.py lines 228-242) for a
cached session, as a function of the current clock, the stored
last_reply_time and the stored energy.  Returns the new energy together with
the dirty flag the sweep sets.  minutes_silent defaults to the sentinel 999
when the session has never replied (last_reply_time == 0). -/
def applyPassiveDecay (now last_reply_time energy : ℚ) : ℚ × Bool :=
  let minutes_silent : ℚ := if last_reply_time ≠ 0 then (now - last_reply_time) / 60 else 999
  if 60 < minutes_silent ∧ minutes_silent < 999 then
    if energy < 0.8 then (min 0.8 (energy + 0.1), true)
    else (energy, false)
  else (energy, false)

/-! ## Cache maintenance sweep (features/maintenance_task.py)

`_process_cache_maintenance` (lines 128-167) runs in two phases separated by
suspension points.  The scan loop writes back each dirty entry with
`await persistence.save_chat_state` — an aiosqlite call whose own body catches
every error (persistence.py lines 99-111), so the await always returns
normally and line 148 `state.is_dirty = False` always runs, also after a
failed write — and then takes the eviction decision (lines 153-159), collecting
approved ids in `chats_to_remove`.  Only after the whole scan does a second
loop (lines 162-167) pop each collected id, re-checking nothing but that the
id is still a key of the cache.  For any one session, the scan of the other
cache entries — with their write-back awaits — lies between its decision and
its pop, so message-handling tasks can run in that window.  The model tracks
one session's cache entry together with the sweep's position relative to it;
the `busy`/`touch` steps are the message-handling tasks that may run whenever
the sweep coroutine is suspended. -/

inductive SweepPhase where
  | sIdle
  | sSaving (now : ℚ)
  | sDecided (approved : Bool)
deriving DecidableEq, Repr

structure CState where
  is_dirty : Bool
  lockedE : Bool
  accE : List ℕ
  bgE : List ℕ
  last_access_time : ℚ
  present : Bool
  sweep : SweepPhase
deriving DecidableEq, Repr

/-- The eviction test of lines 155-158 at the sweep clock `now` captured at
line 130: past the hardcoded 600 s TTL, not dirty, and not busy (lock free,
both pools empty). -/
def evictApproved (now : ℚ) (e : CState) : Bool :=
  decide (600 < now - e.last_access_time) && !e.is_dirty &&
    !(e.lockedE || !e.accE.isEmpty || !e.bgE.isEmpty)

inductive CLbl where
  | scanDirty (now : ℚ)
  | scanClean (now : ℚ)
  | saveDone
  | pop
  | popAbsent
  | scanOver
  | busy (m : ℕ)
  | touch (t : ℚ)

/-- Atomic transitions of the sweep around one session's cache entry. -/
inductive CStep : CLbl → CState → CState → Prop where
  /-- Lines 144-147: the scan reaches this dirty entry and awaits the
  write-back. -/
  | scanDirtyStep (e : CState) (now : ℚ) :
      e.sweep = .sIdle → e.present = true → e.is_dirty = true →
      CStep (.scanDirty now) e { e with sweep := .sSaving now }
  /-- Lines 153-159 for a clean entry: the eviction decision is taken in the
  same atomic block as the scan visit. -/
  | scanCleanStep (e : CState) (now : ℚ) :
      e.sweep = .sIdle → e.present = true → e.is_dirty = false →
      CStep (.scanClean now) e { e with sweep := .sDecided (evictApproved now e) }
  /-- Lines 148 and 153-159: save_chat_state returned — it returns normally
  even when the write failed, because persistence.py lines 110-111 swallow the
  error — so the dirty flag is cleared unconditionally and the eviction
  decision is taken on the cleared entry. -/
  | saveDoneStep (e : CState) (now : ℚ) :
      e.sweep = .sSaving now →
      CStep .saveDone e
        { e with is_dirty := false,
                 sweep := .sDecided (evictApproved now { e with is_dirty := false }) }
  /-- Lines 162-166: the pop loop re-checks only cache membership and removes
  the entry whatever its lock, pools or dirty flag have become meanwhile. -/
  | popStep (e : CState) :
      e.sweep = .sDecided true → e.present = true →
      CStep .pop e { e with present := false, sweep := .sIdle }
  /-- Lines 165-166: an id that left the cache in the meantime is skipped
  without effect. -/
  | popAbsentStep (e : CState) :
      e.sweep = .sDecided true → e.present = false →
      CStep .popAbsent e { e with sweep := .sIdle }
  /-- A not-approved entry is simply left cached. -/
  | scanOverStep (e : CState) :
      e.sweep = .sDecided false →
      CStep .scanOver e { e with sweep := .sIdle }
  /-- A message-handling task focuses the cached session: the lock is acquired
  and the message enters the accumulation pool (attention.py lines 73-81,
  mind_scheduler.py lines 116-126). -/
  | busyStep (e : CState) (m : ℕ) :
      e.present = true →
      CStep (.busy m) e { e with lockedE := true, accE := e.accE ++ [m] }
  /-- get_chat_state refreshes the access clock of a cached entry. -/
  | touchStep (e : CState) (t : ℚ) :
      e.present = true →
      CStep (.touch t) e { e with last_access_time := t }

/-- A freshly created cached session: get_chat_state marks a new state dirty
(state_manager.py line 74), lock free, empty pools, in the cache. -/
def cInit : CState :=
  { is_dirty := true, lockedE := false, accE := [], bgE := [],
    last_access_time := 0, present := true, sweep := .sIdle }

/-- Entry states reachable from a fresh cached session. -/
inductive CReach : CState → Prop where
  | init : CReach cInit
  | step {l : CLbl} {e e2 : CState} : CReach e → CStep l e e2 → CReach e2

/-! ## The debounce polling loop (astrmai/Heart/attention.py)

`_wait_and_process` polls the accumulation pool every 0.5 s.  Time is
discretised in poll ticks: `poolLen n` is the length of the accumulation pool
observed at tick `n`, `W` is `config.attention.debounce_window` in ticks.  The
loop state is the pair (no_msg_start_time, last_pool_len); when the pool has
grown the quiet-period reference is reset to the current tick (the code resets
to `time.time()` and then to the newest message's own timestamp, which lies in
the same poll interval). -/

/-- One iteration of the dynamic debounce loop (attention.py lines 104-116),
before the break test. -/
def debounceStep (poolLen : ℕ → ℕ) (n : ℕ) (st : ℕ × ℕ) : ℕ × ℕ :=
  if st.2 < poolLen n then (n, poolLen n) else st

/-- Loop state after the update of tick `n`, starting from
(no_msg_start_time, last_pool_len) = (0, 0) at tick 0. -/
def debounceState (poolLen : ℕ → ℕ) : ℕ → ℕ × ℕ
  | 0 => debounceStep poolLen 0 (0, 0)
  | n + 1 => debounceStep poolLen (n + 1) (debounceState poolLen n)

/-- The break test of tick `n`: more than the debounce window has elapsed since
the quiet-period reference. -/
def debounceBreaks (poolLen : ℕ → ℕ) (W n : ℕ) : Bool :=
  decide (W < n - (debounceState poolLen n).1)

/-- The loop has terminated by tick `T`. -/
def debounceTerminatesWithin (poolLen : ℕ → ℕ) (W T : ℕ) : Bool :=
  (List.range (T + 1)).any (fun n => debounceBreaks poolLen W n)

/-- The spec's hard-ceiling property for window `W`: some total bound `Tmax`
works for every (monotone, since the pool only ever grows during a window)
arrival schedule. -/
def debounceHasHardCeiling (W : ℕ) : Prop :=
  ∃ Tmax : ℕ, ∀ poolLen : ℕ → ℕ, Monotone poolLen →
    debounceTerminatesWithin poolLen W Tmax = true

/-! ## Claims about the pure components -/

/-- C4: if energy is below `min_reply_threshold` and the message carries no wake
signal the decision is IGNORE and the classifier is never called; a wake signal
yields REPLY at maximum priority (necessity 10, relevance 10) without calling
the classifier, for every energy value — in particular below the floor. -/
theorem judge_energy_floor_and_wake_bypass
    (cfg : JudgeConfig) (energy : ℚ) (message : String) (cl : JudgeCall) :
    (energy < cfg.min_reply_threshold →
      judgeEvaluate cfg energy message false cl =
        ({ action := "IGNORE", thought := "能量耗尽", relevance := 0, necessity := 0 }, false)) ∧
    judgeEvaluate cfg energy message true cl =
      ({ action := "REPLY", thought := "受到强唤醒", relevance := 10, necessity := 10 }, false) := by
  constructor
  · intro h
    unfold judgeEvaluate
    rw [if_pos ⟨h, rfl⟩]
  · unfold judgeEvaluate
    rw [if_neg (by simp), if_pos rfl]

/-- Witness for C4 at energy 0.05, floor 0.1 (spec scenarios D and E). -/
theorem judge_energy_floor_and_wake_bypass_witness :
    judgeEvaluate ⟨0.1, []⟩ 0.05 "hi" false .gatewayFailure =
      ({ action := "IGNORE", thought := "能量耗尽", relevance := 0, necessity := 0 }, false) ∧
    judgeEvaluate ⟨0.1, []⟩ 0.05 "hi" true .gatewayFailure =
      ({ action := "REPLY", thought := "受到强唤醒", relevance := 10, necessity := 10 }, false) :=
  ⟨(judge_energy_floor_and_wake_bypass ⟨0.1, []⟩ 0.05 "hi" .gatewayFailure).1 (by norm_num),
   (judge_energy_floor_and_wake_bypass ⟨0.1, []⟩ 0.05 "hi" .gatewayFailure).2⟩

/-- C9 counterexample: the classifier-failure outcome is not configurable.  A
failing classifier call comes back from gateway.call_judge as the empty dict,
which judge.py reads as the default "IGNORE" — so no configuration can make a
message that reaches the classifier step come back as REPLY when the call
fails; judge.py line 74 is reached only by response-parsing type errors. -/
theorem classifier_failure_not_configurable :
    ¬ ∃ cfg : JudgeConfig,
        (judgeEvaluate cfg 1 "hello" false .gatewayFailure).2 = true ∧
        (judgeEvaluate cfg 1 "hello" false .gatewayFailure).1.action = "REPLY" := by
  rintro ⟨cfg, hcall, hact⟩
  unfold judgeEvaluate at hcall hact
  by_cases h1 : (1 : ℚ) < cfg.min_reply_threshold ∧ (false : Bool) = false
  · rw [if_pos h1] at hcall
    exact absurd hcall (by simp)
  · rw [if_neg h1, if_neg (by simp)] at hcall hact
    rcases hf : cfg.wakeup_words.find?
        (fun kw => ("hello".trim.toLower).startsWith kw.toLower) with _ | kw
    · rw [hf] at hact
      exact absurd hact (by simp)
    · rw [hf] at hcall
      exact absurd hcall (by simp)

/-- C9 amended: when the energy floor and the wakeup-word shortcut do not fire,
a failing classifier call yields the fail-closed decision IGNORE — call_judge
swallows the failure and returns the empty dict, whose default reads pass the
validation — while the hardcoded REPLY of judge.py line 74 fires only when the
reads of an already-returned response raise; in both cases the failure is
absorbed and evaluate still returns a plan rather than propagating an error. -/
theorem classifier_failure_fail_closed
    (cfg : JudgeConfig) (energy : ℚ) (message : String)
    (h1 : ¬ energy < cfg.min_reply_threshold)
    (h2 : cfg.wakeup_words.find? (fun kw => (message.trim.toLower).startsWith kw.toLower) = none) :
    judgeEvaluate cfg energy message false .gatewayFailure =
      ({ action := "IGNORE", thought := "...", relevance := 0, necessity := 0 }, true) ∧
    judgeEvaluate cfg energy message false .malformed =
      ({ defaultPlan with action := "REPLY" }, true) := by
  constructor
  · unfold judgeEvaluate
    rw [if_neg (by simp [h1]), if_neg (by simp), h2]
  · unfold judgeEvaluate
    rw [if_neg (by simp [h1]), if_neg (by simp), h2]

/-- Witness for C9 amended at energy 1, floor 0.1, no wakeup words. -/
theorem classifier_failure_fail_closed_witness :
    judgeEvaluate ⟨0.1, []⟩ 1 "hello" false .gatewayFailure =
      ({ action := "IGNORE", thought := "...", relevance := 0, necessity := 0 }, true) ∧
    judgeEvaluate ⟨0.1, []⟩ 1 "hello" false .malformed =
      ({ defaultPlan with action := "REPLY" }, true) :=
  classifier_failure_fail_closed ⟨0.1, []⟩ 1 "hello" (by norm_num) rfl

/-- C10: passive recovery changes energy only when the silence gap is strictly
between 60 and 999 minutes; a session that never replied (sentinel 999) or has
been silent at least 999 minutes is left unchanged, and any change is a strict
increase. -/
theorem passive_decay_window (now last_reply_time energy : ℚ) :
    (last_reply_time = 0 → applyPassiveDecay now last_reply_time energy = (energy, false)) ∧
    (999 ≤ (now - last_reply_time) / 60 →
      applyPassiveDecay now last_reply_time energy = (energy, false)) ∧
    ((applyPassiveDecay now last_reply_time energy).1 ≠ energy →
      last_reply_time ≠ 0 ∧ 60 < (now - last_reply_time) / 60 ∧
      (now - last_reply_time) / 60 < 999 ∧
      energy < (applyPassiveDecay now last_reply_time energy).1) := by
  refine ⟨?_, ?_, ?_⟩
  · intro h
    subst h
    unfold applyPassiveDecay
    norm_num
  · intro h9
    unfold applyPassiveDecay
    by_cases h0 : last_reply_time ≠ 0
    · rw [if_pos h0, if_neg (by rintro ⟨_, hlt⟩; linarith)]
    · rw [if_neg h0, if_neg (by norm_num)]
  · intro hch
    unfold applyPassiveDecay at hch ⊢
    by_cases h0 : last_reply_time ≠ 0
    · rw [if_pos h0] at hch ⊢
      by_cases hw : (60 : ℚ) < (now - last_reply_time) / 60 ∧ (now - last_reply_time) / 60 < 999
      · rw [if_pos hw] at hch ⊢
        by_cases he : energy < 0.8
        · refine ⟨h0, hw.1, hw.2, ?_⟩
          rw [if_pos he]
          rcases le_total (energy + 0.1) 0.8 with h1 | h1
          · rw [min_eq_right h1]; linarith
          · rw [min_eq_left h1]; linarith
        · rw [if_neg he] at hch
          exact absurd rfl hch
      · rw [if_neg hw] at hch
        exact absurd rfl hch
    · rw [if_neg h0, if_neg (by norm_num)] at hch
      exact absurd rfl hch

/-- Witness for C10: a session that never replied is untouched, and one silent
for 999 minutes exactly is untouched. -/
theorem passive_decay_window_witness :
    applyPassiveDecay 5400 0 0.5 = (0.5, false) ∧
    applyPassiveDecay 59940.5 0.5 0.5 = (0.5, false) :=
  ⟨(passive_decay_window 5400 0 0.5).1 rfl,
   (passive_decay_window 59940.5 0.5 0.5).2.1 (by norm_num)⟩

/-- Boolean extraction for the eviction test. -/
lemma evictApproved_true {now : ℚ} {e : CState} (h : evictApproved now e = true) :
    600 < now - e.last_access_time ∧ e.is_dirty = false ∧ e.lockedE = false ∧
    e.accE = [] ∧ e.bgE = [] := by
  unfold evictApproved at h
  simp [List.isEmpty_iff] at h
  tauto

/-- The entry approved for eviction while clean and idle, then focused by
message 5 before the pop loop ran: lock held, pool non-empty, still marked
for removal. -/
def cDecidedBusy : CState :=
  { is_dirty := false, lockedE := true, accE := [5], bgE := [],
    last_access_time := 0, present := true, sweep := .sDecided true }

/-- `cDecidedBusy` after the pop: removed from the cache while busy. -/
def cRemoved : CState :=
  { is_dirty := false, lockedE := true, accE := [5], bgE := [],
    last_access_time := 0, present := false, sweep := .sIdle }

lemma cDecidedBusy_reach : CReach cDecidedBusy := by
  have h1 := CReach.step CReach.init (CStep.scanDirtyStep cInit 1000 rfl rfl rfl)
  have h2 := CReach.step h1 (CStep.saveDoneStep _ 1000 rfl)
  have h3 := CReach.step h2 (CStep.busyStep _ 5 rfl)
  norm_num [evictApproved, cInit] at h3
  exact h3

/-- C7 counterexample: the sweep removes a session from the cache while its
lock is held and its accumulation pool is non-empty.  The decision (taken while
the entry was clean and idle) and the pop are separated by the suspension
points of the scan, and the pop re-checks only membership
(maintenance_task.py lines 162-166), so a session focused in between is
removed anyway. -/
theorem eviction_removes_busy_session :
    CReach cDecidedBusy ∧ cDecidedBusy.lockedE = true ∧ cDecidedBusy.accE ≠ [] ∧
    CStep .pop cDecidedBusy cRemoved ∧ cRemoved.present = false ∧
    CReach cRemoved :=
  ⟨cDecidedBusy_reach, rfl, by decide, CStep.popStep cDecidedBusy rfl rfl, rfl,
   CReach.step cDecidedBusy_reach (CStep.popStep cDecidedBusy rfl rfl)⟩

/-- C7 amended: the eviction decision itself is safe — a session is approved
for removal only if, at that instant (for a dirty entry: right after its
write-back), it is unlocked, with both pools empty, not dirty and past the
TTL — and an id that already left the cache is skipped by the pop without any
effect on the entry.  But the removal happens only later (see the
counterexample), and the write-back clears the dirty flag even when the
underlying save failed, since save_chat_state swallows its errors. -/
theorem eviction_decision_safety :
    (∀ (e e2 : CState) (now : ℚ), CStep (.scanClean now) e e2 →
      e2.sweep = SweepPhase.sDecided true →
      e.lockedE = false ∧ e.accE = [] ∧ e.bgE = [] ∧ e.is_dirty = false ∧
      600 < now - e.last_access_time) ∧
    (∀ (e e2 : CState), CStep .saveDone e e2 →
      e2.is_dirty = false ∧
      (e2.sweep = SweepPhase.sDecided true →
        e.lockedE = false ∧ e.accE = [] ∧ e.bgE = [])) ∧
    (∀ (e e2 : CState), CStep .popAbsent e e2 →
      e2.present = e.present ∧ e2.is_dirty = e.is_dirty ∧ e2.lockedE = e.lockedE ∧
      e2.accE = e.accE ∧ e2.bgE = e.bgE) := by
  refine ⟨?_, ?_, ?_⟩
  · intro e e2 now hstep hdec
    cases hstep with
    | scanCleanStep _ _ hph hpres hdirty =>
        have h3 : evictApproved now e = true := SweepPhase.sDecided.inj hdec
        obtain ⟨ha, hb, hc, hd, he⟩ := evictApproved_true h3
        exact ⟨hc, hd, he, hb, ha⟩
  · intro e e2 hstep
    cases hstep with
    | saveDoneStep _ now hph =>
        refine ⟨rfl, ?_⟩
        intro hdec
        have h3 : evictApproved now { e with is_dirty := false } = true :=
          SweepPhase.sDecided.inj hdec
        obtain ⟨ha, hb, hc, hd, he⟩ := evictApproved_true h3
        exact ⟨hc, hd, he⟩
  · intro e e2 hstep
    cases hstep with
    | popAbsentStep _ hph hpres => exact ⟨rfl, rfl, rfl, rfl, rfl⟩

/-- A clean idle cached entry used in the C7 witness. -/
def cClean : CState :=
  { is_dirty := false, lockedE := false, accE := [], bgE := [],
    last_access_time := 0, present := true, sweep := .sIdle }

/-- Witness for C7 amended: the concrete approving scan of a clean idle entry
at sweep clock 1000. -/
theorem eviction_decision_safety_witness :
    cClean.lockedE = false ∧ cClean.accE = [] ∧ cClean.bgE = [] ∧
    cClean.is_dirty = false ∧ 600 < (1000 : ℚ) - cClean.last_access_time :=
  eviction_decision_safety.1 cClean
    { cClean with sweep := .sDecided (evictApproved 1000 cClean) } 1000
    (CStep.scanCleanStep cClean 1000 rfl rfl rfl)
    (by norm_num [evictApproved, cClean])

/-- C5 counterexample: there is no hard ceiling on the aggregation window.
With one new owner message in every poll interval the quiet-period reference
is reset on every tick and the loop never breaks, so no total bound Tmax can
exist (shown for the default window of 2 s, i.e. 4 poll ticks). -/
theorem debounce_no_hard_ceiling : ¬ debounceHasHardCeiling 4 := by
  rintro ⟨T, hT⟩
  have hmono : Monotone (fun n : ℕ => n + 1) := fun a b h => Nat.succ_le_succ h
  have hstate : ∀ n, debounceState (fun n => n + 1) n = (n, n + 1) := by
    intro n
    induction n with
    | zero => rfl
    | succ k ih =>
        show debounceStep (fun n => n + 1) (k + 1) (debounceState (fun n => n + 1) k) = _
        rw [ih, debounceStep, if_pos (by omega)]
  have hterm := hT (fun n => n + 1) hmono
  rw [debounceTerminatesWithin, List.any_eq_true] at hterm
  obtain ⟨n, _, hb⟩ := hterm
  rw [debounceBreaks, hstate] at hb
  simp at hb

/-- C5 amended: the aggregation phase has no owner-independent ceiling; it
terminates exactly through quiet periods: as soon as the pool stops growing at
some tick n0, the loop breaks within the next W + 1 ticks. -/
theorem debounce_terminates_after_quiet
    (poolLen : ℕ → ℕ) (W n0 : ℕ)
    (hconst : ∀ k, n0 ≤ k → poolLen k = poolLen n0) :
    debounceTerminatesWithin poolLen W (n0 + W + 1) = true := by
  have hsnd : ∀ n, poolLen n ≤ (debounceState poolLen n).2 := by
    intro n
    cases n with
    | zero =>
        show poolLen 0 ≤ (debounceStep poolLen 0 (0, 0)).2
        rw [debounceStep]
        split
        · exact le_rfl
        · omega
    | succ k =>
        show poolLen (k + 1) ≤ (debounceStep poolLen (k + 1) (debounceState poolLen k)).2
        rw [debounceStep]
        split
        · exact le_rfl
        · omega
  have hfst : ∀ n, (debounceState poolLen n).1 ≤ n := by
    intro n
    induction n with
    | zero =>
        show (debounceStep poolLen 0 (0, 0)).1 ≤ 0
        rw [debounceStep]
        split <;> simp
    | succ k ih =>
        show (debounceStep poolLen (k + 1) (debounceState poolLen k)).1 ≤ k + 1
        rw [debounceStep]
        split
        · exact le_rfl
        · omega
  have hfrozen : ∀ d, debounceState poolLen (n0 + d) = debounceState poolLen n0 := by
    intro d
    induction d with
    | zero => rfl
    | succ c ih =>
        have : n0 + (c + 1) = (n0 + c) + 1 := rfl
        rw [this]
        show debounceStep poolLen ((n0 + c) + 1) (debounceState poolLen (n0 + c)) = _
        rw [ih, debounceStep, if_neg]
        have h1 : poolLen ((n0 + c) + 1) = poolLen n0 := hconst _ (by omega)
        have h2 : poolLen n0 ≤ (debounceState poolLen n0).2 := by
          have := hsnd n0
          rwa [hconst n0 le_rfl] at this
        omega
  rw [debounceTerminatesWithin, List.any_eq_true]
  refine ⟨n0 + W + 1, List.mem_range.mpr (by omega), ?_⟩
  rw [debounceBreaks]
  have hN : n0 + W + 1 = n0 + (W + 1) := by omega
  rw [hN, hfrozen (W + 1)]
  have := hfst n0
  simp only [decide_eq_true_eq]
  omega

/-- Witness for C5 amended: a single seed message and no further arrivals close
the default 4-tick window by tick 5. -/
theorem debounce_terminates_after_quiet_witness :
    debounceTerminatesWithin (fun _ => 1) 4 5 = true :=
  debounce_terminates_after_quiet (fun _ => 1) 4 0 (fun _ _ => rfl)

/-! ## AttentionGate as a transition system (astrmai/Heart/attention.py)

`process_event` (dual-pool routing, lines 60-91) and the `_wait_and_process`
aggregation task (lines 93-139) cooperate over one session's ChatState.  One
transition is one atomic block between suspension points.  The single `timer`
field mirrors `chat_state.wakeup_timer`: a new aggregation task is only created
in the idle branch, and a finished task's last atomic block (the `finally`)
releases the lock, so at most one aggregation task is ever live.  Events and
senders are numeric identifiers; an event's admission decision enters as the
`action` string of the `plan` computed at line 54. -/

inductive TPhase where
  | idle
  | waiting
  | closing
deriving DecidableEq, Repr

structure GState where
  glocked : Bool
  owner : Option ℕ
  gacc : List ℕ
  gbg : List ℕ
  timer : TPhase
deriving DecidableEq, Repr

/-- A fresh ChatState: lock free, no owner, empty pools, no aggregation task. -/
def gInit : GState :=
  { glocked := false, owner := none, gacc := [], gbg := [], timer := .idle }

/-- The bounded append of the idle-IGNORE branch (attention.py lines 89-91):
append, then pop the oldest element when the configured cap is exceeded. -/
def trimBg (cap : ℕ) (l : List ℕ) : List ℕ :=
  if cap < l.length then l.tail else l

inductive GLbl where
  | msg (sender m : ℕ) (action : String)
  | msgSpawnFail (sender m : ℕ) (action : String)
  | close
  | closeEmpty
  | finish

/-- Atomic transitions of one session's gate, parameterised by the configured
`attention.bg_pool_size` cap. -/
inductive GStep (cap : ℕ) : GLbl → GState → GState → Prop where
  /-- Lines 61-66: lock held and the sender is the owner — extend the
  accumulation pool. -/
  | busyOwner (g : GState) (sender m : ℕ) (a : String) :
      g.glocked = true → g.owner = some sender →
      GStep cap (.msg sender m a) g { g with gacc := g.gacc ++ [m] }
  /-- Lines 67-69: lock held, any other sender — defer to the background pool
  (no cap is applied on this path). -/
  | busyOther (g : GState) (sender m : ℕ) (a : String) :
      g.glocked = true → g.owner ≠ some sender →
      GStep cap (.msg sender m a) g { g with gbg := g.gbg ++ [m] }
  /-- Lines 73-81: idle and the decision is REPLY or WAIT — acquire the lock,
  take ownership, seed the pool, start the aggregation task.  `lock.acquire()`
  on a free lock does not suspend, so the whole block is atomic. -/
  | idleFocus (g : GState) (sender m : ℕ) (a : String) :
      g.glocked = false → (a = "REPLY" ∨ a = "WAIT") →
      GStep cap (.msg sender m a) g
        { g with glocked := true, owner := some sender,
                 gacc := g.gacc ++ [m], timer := .waiting }
  /-- Lines 82-86: the task spawn raised — the except branch releases the lock
  and clears the owner in the same atomic block. -/
  | idleFocusFail (g : GState) (sender m : ℕ) (a : String) :
      g.glocked = false → (a = "REPLY" ∨ a = "WAIT") →
      GStep cap (.msgSpawnFail sender m a) g
        { g with glocked := false, owner := none, gacc := g.gacc ++ [m] }
  /-- Lines 88-91: idle and IGNOREd — ambient context into the background pool,
  bounded by the cap. -/
  | idleIgnore (g : GState) (sender m : ℕ) (a : String) :
      g.glocked = false → ¬ (a = "REPLY" ∨ a = "WAIT") →
      GStep cap (.msg sender m a) g { g with gbg := trimBg cap (g.gbg ++ [m]) }
  /-- Lines 118-129: the quiet period elapsed with a non-empty pool — snapshot
  and clear it, then await the System-2 callback. -/
  | closeStep (g : GState) :
      g.timer = .waiting → g.gacc ≠ [] →
      GStep cap .close g { g with gacc := [], timer := .closing }
  /-- Lines 118-139 when the snapshot is empty: no callback is awaited and the
  `finally` runs in the same block — owner cleared, lock released. -/
  | closeEmptyStep (g : GState) :
      g.timer = .waiting → g.gacc = [] →
      GStep cap .closeEmpty g
        { g with owner := none, glocked := false, timer := .idle }
  /-- Lines 131-139: the callback returned or raised — the `finally` clears the
  owner and releases the lock. -/
  | finishStep (g : GState) :
      g.timer = .closing →
      GStep cap .finish g { g with owner := none, glocked := false, timer := .idle }
  /-- Lines 131-139 reached from an exception inside the polling loop itself:
  the pool is left as it is, owner cleared, lock released. -/
  | abortStep (g : GState) :
      g.timer = .waiting →
      GStep cap .finish g { g with owner := none, glocked := false, timer := .idle }

/-- States reachable from a fresh session state. -/
inductive GReach (cap : ℕ) : GState → Prop where
  | init : GReach cap gInit
  | step {l : GLbl} {g g2 : GState} : GReach cap g → GStep cap l g g2 → GReach cap g2

/-- C3: in every reachable gate state, the session has an owner exactly when
the session lock is held — including across task-spawn failures and the error
paths of the aggregation task. -/
theorem ownership_lock_invariant (cap : ℕ) (g : GState) (h : GReach cap g) :
    g.owner ≠ none ↔ g.glocked = true := by
  induction h with
  | init => simp [gInit]
  | step _ hstep ih => cases hstep <;> simp_all

/-- Witness for C3 at the initial state: no owner and a free lock. -/
theorem ownership_lock_invariant_witness :
    gInit.owner ≠ none ↔ gInit.glocked = true :=
  ownership_lock_invariant 20 gInit GReach.init

/-- The state reached by: an IGNOREd ambient message (id 10) while idle, then
sender 1 focuses the gate (message 1), then sender 2 defers message 12 while
the lock is held — all under a background cap of 1. -/
def gOverCap : GState :=
  { glocked := true, owner := some 1, gacc := [1], gbg := [10, 12], timer := .waiting }

/-- C6 counterexample: the background pool is not bounded by the configured
cap.  With cap 1 the locked-branch append (attention.py line 69) grows the
background pool to 2 elements and nothing drops the oldest. -/
theorem background_cap_violated :
    GReach 1 gOverCap ∧ 1 < gOverCap.gbg.length := by
  refine ⟨?_, by decide⟩
  exact GReach.step
    (GReach.step
      (GReach.step GReach.init (GStep.idleIgnore gInit 5 10 "IGNORE" rfl (by simp)))
      (GStep.idleFocus _ 1 1 "REPLY" rfl (Or.inl rfl)))
    (GStep.busyOther _ 2 12 "REPLY" rfl (by decide))

/-- C6 amended: while the lock is held, an admitted message from the owner goes
to the accumulation pool and any other sender's message is appended to the
background pool, without any cap; the cap (drop-oldest) is enforced only on the
idle-IGNORE branch, which keeps the background pool at or below the cap; and a
pool growth observed by the debounce loop re-arms the quiet-period reference to
the current tick. -/
theorem dual_pool_routing (cap : ℕ) (g g2 : GState) (sender m : ℕ) (a : String)
    (hstep : GStep cap (.msg sender m a) g g2) :
    (g.glocked = true → g.owner = some sender →
      g2.gacc = g.gacc ++ [m] ∧ g2.gbg = g.gbg) ∧
    (g.glocked = true → g.owner ≠ some sender →
      g2.gbg = g.gbg ++ [m] ∧ g2.gacc = g.gacc) ∧
    (g.glocked = false → g.gbg.length ≤ cap → g2.gbg.length ≤ cap) ∧
    (∀ poolLen : ℕ → ℕ, ∀ n : ℕ, ∀ st : ℕ × ℕ,
      st.2 < poolLen n → (debounceStep poolLen n st).1 = n) := by
  refine ⟨?_, ?_, ?_, ?_⟩
  · intro hl ho
    cases hstep <;> simp_all
  · intro hl ho
    cases hstep <;> simp_all
  · intro hl hb
    cases hstep <;> simp_all
    rw [trimBg]
    split
    · simp only [List.tail_append_of_ne_nil, List.length_append, List.length_tail]
      simp at *
      omega
    · next hnl =>
      simp only [List.length_append, List.length_cons] at hnl ⊢
      simp
      omega
  · intro poolLen n st h
    rw [debounceStep, if_pos h]

/-- The gate state used in the C6 witness: lock held by owner 1, empty pools. -/
def gBusy : GState :=
  { glocked := true, owner := some 1, gacc := [], gbg := [], timer := .waiting }

/-- Witness for C6 amended at a held lock with owner 1 and an owner message. -/
theorem dual_pool_routing_witness :
    (gBusy.glocked = true → gBusy.owner = some 1 →
      (GState.mk true (some 1) [7] [] .waiting).gacc = gBusy.gacc ++ [7] ∧
      (GState.mk true (some 1) [7] [] .waiting).gbg = gBusy.gbg) ∧
    (gBusy.glocked = true → gBusy.owner ≠ some 1 →
      (GState.mk true (some 1) [7] [] .waiting).gbg = gBusy.gbg ++ [7] ∧
      (GState.mk true (some 1) [7] [] .waiting).gacc = gBusy.gacc) ∧
    (gBusy.glocked = false → gBusy.gbg.length ≤ 20 →
      (GState.mk true (some 1) [7] [] .waiting).gbg.length ≤ 20) ∧
    (∀ poolLen : ℕ → ℕ, ∀ n : ℕ, ∀ st : ℕ × ℕ,
      st.2 < poolLen n → (debounceStep poolLen n st).1 = n) :=
  dual_pool_routing 20 gBusy (GState.mk true (some 1) [7] [] .waiting) 1 7 "WAIT"
    (GStep.busyOwner gBusy 1 7 "WAIT" rfl rfl)

/-! ## MindScheduler as a transition system (core/mind_scheduler.py)

`dispatch` (lines 91-126) routes an admitted SensoryInput into one session's
pools and may create a thinking-loop task; `run_thinking_loop` (lines 128-230)
runs under `async with state.lock`.  Tasks of one session are listed in
creation order; `slot` is the session's entry of `self.active_loops`.  A task's
phase names the suspension point it is parked at: `pending` — created, waiting
to enter the `async with`; `sleeping` — inside the lock at the accumulation
sleep (line 139); `thinking` — awaiting `impulse.think` (line 153), with the
generator batch (the pool snapshot of line 146-149) already emitted to
`batches`; `replying` — awaiting `reply_engine.handle_reply` (line 165) with
the pool already cleared (line 161); `waitSleeping` — the WAIT branch sleep
(line 191); `finished` — the coroutine returned (the lock was released at the
`async with` exit in the same atomic block).  The ghost field `routed` records
every message the dispatcher appended to either pool.  `mood` is written by the
detached `_fast_emotion_reaction` task and by state diffs applied inside
think/reply; the loop's except branch (lines 229-230) writes nothing. -/

inductive Phase where
  | pending
  | sleeping
  | thinking
  | replying
  | waitSleeping
  | finished
deriving DecidableEq, Repr

/-- Phases in which the task is inside the `async with state.lock` block —
i.e. the cycle is in one of the spec's non-Done states Open/Waiting/Closing. -/
def isHolding : Phase → Bool
  | .sleeping => true
  | .thinking => true
  | .replying => true
  | .waitSleeping => true
  | _ => false

structure MSState where
  locked : Bool
  mood : Int
  acc : List ℕ
  bg : List ℕ
  tasks : List Phase
  slot : Option ℕ
  batches : List (List ℕ)
  routed : List ℕ
deriving DecidableEq, Repr

/-- A fresh session: lock free, empty pools, no loop task has ever existed. -/
def msInit : MSState :=
  { locked := false, mood := 0, acc := [], bg := [], tasks := [],
    slot := none, batches := [], routed := [] }

/-- The spawn guard of dispatch line 123:
`session_id not in self.active_loops or self.active_loops[session_id].done()`
is false, i.e. the recorded loop task exists and is not done. -/
def slotBusy (s : MSState) : Bool :=
  match s.slot with
  | none => false
  | some i => ! (s.tasks[i]? == some Phase.finished)

/-- The tail of every successful loop body (lines 216-227 followed by the
`async with` exit and the coroutine return, one atomic block): if the
background buffer is non-empty, move it into the accumulation pool and create
the next loop task in `active_loops`; then release the lock and finish. -/
def promoteFinish (s : MSState) (i : ℕ) : MSState :=
  if s.bg.isEmpty then
    { s with locked := false, tasks := s.tasks.set i .finished }
  else
    { s with acc := s.acc ++ s.bg, bg := [], locked := false,
             tasks := s.tasks.set i .finished ++ [.pending],
             slot := some s.tasks.length }

inductive MLbl where
  | inbound (m : ℕ)
  | emotion (v : Int)
  | start (i : ℕ)
  | wake (i : ℕ)
  | thinkRet (i : ℕ) (a : String) (v : Int)
  | thinkFail (i : ℕ)
  | replyRet (i : ℕ) (v : Int)
  | replyFail (i : ℕ)
  | waitWake (i : ℕ)

/-- Atomic transitions of one session under MindScheduler. -/
inductive MStep : MLbl → MSState → MSState → Prop where
  /-- dispatch lines 112-115: lock held — defer to the background buffer. -/
  | dispatchBusy (s : MSState) (m : ℕ) :
      s.locked = true →
      MStep (.inbound m) s { s with bg := s.bg ++ [m], routed := s.routed ++ [m] }
  /-- dispatch lines 116-123, spawn guard false: append to the accumulation
  pool only. -/
  | dispatchIdleNoSpawn (s : MSState) (m : ℕ) :
      s.locked = false → slotBusy s = true →
      MStep (.inbound m) s { s with acc := s.acc ++ [m], routed := s.routed ++ [m] }
  /-- dispatch lines 116-126, spawn guard true: append and create a new loop
  task, recording it in active_loops. -/
  | dispatchIdleSpawn (s : MSState) (m : ℕ) :
      s.locked = false → slotBusy s = false →
      MStep (.inbound m) s
        { s with acc := s.acc ++ [m], routed := s.routed ++ [m],
                 tasks := s.tasks ++ [.pending], slot := some s.tasks.length }
  /-- _fast_emotion_reaction (lines 84-89), a detached task that may run at any
  point and overwrite the session mood. -/
  | emotionStep (s : MSState) (v : Int) :
      MStep (.emotion v) s { s with mood := v }
  /-- run_thinking_loop line 132: a created task enters `async with state.lock`
  when the lock is free. -/
  | startStep (s : MSState) (i : ℕ) :
      s.tasks[i]? = some .pending → s.locked = false →
      MStep (.start i) s { s with locked := true, tasks := s.tasks.set i .sleeping }
  /-- Line 141 with an empty pool: return from inside the `async with` —
  release and finish, skipping the whole body. -/
  | wakeEmpty (s : MSState) (i : ℕ) :
      s.tasks[i]? = some .sleeping → s.acc = [] →
      MStep (.wake i) s { s with locked := false, tasks := s.tasks.set i .finished }
  /-- Lines 141-153: the accumulation sleep ended with a non-empty pool; the
  pool snapshot becomes the generator batch and impulse.think is awaited. -/
  | wakeBatch (s : MSState) (i : ℕ) :
      s.tasks[i]? = some .sleeping → s.acc ≠ [] →
      MStep (.wake i) s
        { s with batches := s.batches ++ [s.acc], tasks := s.tasks.set i .thinking }
  /-- Lines 158-165, decision REPLY: clear the pool and await handle_reply. -/
  | thinkReply (s : MSState) (i : ℕ) (v : Int) :
      s.tasks[i]? = some .thinking →
      MStep (.thinkRet i "REPLY" v) s
        { s with mood := v, acc := [], tasks := s.tasks.set i .replying }
  /-- Lines 178-191, decision WAIT: keep the pool and sleep under the lock. -/
  | thinkWait (s : MSState) (i : ℕ) (v : Int) :
      s.tasks[i]? = some .thinking →
      MStep (.thinkRet i "WAIT" v) s
        { s with mood := v, tasks := s.tasks.set i .waitSleeping }
  /-- Lines 201-206, decision COMPLETE_TALK: clear the pool, then the common
  tail (background promotion, release, finish) in the same block. -/
  | thinkComplete (s : MSState) (i : ℕ) (v : Int) :
      s.tasks[i]? = some .thinking →
      MStep (.thinkRet i "COMPLETE_TALK" v) s
        (promoteFinish { s with mood := v, acc := [] } i)
  /-- Lines 208-214, decision IGNORE: likewise clears the pool. -/
  | thinkIgnore (s : MSState) (i : ℕ) (v : Int) :
      s.tasks[i]? = some .thinking →
      MStep (.thinkRet i "IGNORE" v) s
        (promoteFinish { s with mood := v, acc := [] } i)
  /-- An unrecognised action string: no branch matches, the pool stays and the
  common tail runs. -/
  | thinkOther (s : MSState) (i : ℕ) (a : String) (v : Int) :
      s.tasks[i]? = some .thinking →
      a ≠ "REPLY" → a ≠ "WAIT" → a ≠ "COMPLETE_TALK" → a ≠ "IGNORE" →
      MStep (.thinkRet i a v) s (promoteFinish { s with mood := v } i)
  /-- impulse.think raised: except at line 229 logs, the `async with` exit
  releases, the task finishes — the common tail never runs. -/
  | thinkFailStep (s : MSState) (i : ℕ) :
      s.tasks[i]? = some .thinking →
      MStep (.thinkFail i) s { s with locked := false, tasks := s.tasks.set i .finished }
  /-- handle_reply returned: state updates of lines 171-176 (not modelled
  fields) plus the common tail. -/
  | replyRetStep (s : MSState) (i : ℕ) (v : Int) :
      s.tasks[i]? = some .replying →
      MStep (.replyRet i v) s (promoteFinish { s with mood := v } i)
  /-- handle_reply raised: like thinkFail, the tail is skipped. -/
  | replyFailStep (s : MSState) (i : ℕ) :
      s.tasks[i]? = some .replying →
      MStep (.replyFail i) s { s with locked := false, tasks := s.tasks.set i .finished }
  /-- The WAIT sleep ended: the common tail runs with the pool intact. -/
  | waitWakeStep (s : MSState) (i : ℕ) :
      s.tasks[i]? = some .waitSleeping →
      MStep (.waitWake i) s (promoteFinish s i)

/-- States of one session reachable from a fresh session. -/
inductive MReach : MSState → Prop where
  | init : MReach msInit
  | step {l : MLbl} {s s2 : MSState} : MReach s → MStep l s s2 → MReach s2

/-! ## Invariants of the MindScheduler system -/

lemma getElem?_lt_length {l : List Phase} {i : ℕ} {p : Phase} (h : l[i]? = some p) :
    i < l.length := by
  by_contra hn
  rw [List.getElem?_eq_none (by omega)] at h
  cases h

lemma holding_ne_finished {p : Phase} (h : isHolding p = true) : p ≠ Phase.finished := by
  cases p <;> simp_all [isHolding]

lemma slotBusy_eq_false {s : MSState} (h : slotBusy s = false) :
    s.slot = none ∨ ∃ i, s.slot = some i ∧ s.tasks[i]? = some Phase.finished := by
  unfold slotBusy at h
  split at h
  · next heq => exact Or.inl heq
  · next i heq =>
      simp at h
      exact Or.inr ⟨i, heq, h⟩

/-- The inductive invariant: (1) every unfinished task is the one recorded in
active_loops, so there is at most one; (2) when the lock is free no task is
inside the locked region; (3) every routed message is still pending in a pool
or already part of an emitted batch; (4) past the batch emission (thinking or
replying phase) the whole accumulation pool is covered by emitted batches. -/
def MInv (s : MSState) : Prop :=
  (∀ (i : ℕ) (p : Phase), s.tasks[i]? = some p → p ≠ Phase.finished → s.slot = some i) ∧
  (s.locked = false → ∀ (i : ℕ) (p : Phase), s.tasks[i]? = some p → isHolding p = false) ∧
  (∀ m : ℕ, m ∈ s.routed → m ∈ s.acc ∨ m ∈ s.bg ∨ ∃ b, b ∈ s.batches ∧ m ∈ b) ∧
  ((∃ i : ℕ, s.tasks[i]? = some Phase.thinking ∨ s.tasks[i]? = some Phase.replying) →
    ∀ m : ℕ, m ∈ s.acc → ∃ b, b ∈ s.batches ∧ m ∈ b)

lemma uniq_nonfinished {s : MSState}
    (hI1 : ∀ (j : ℕ) (q : Phase), s.tasks[j]? = some q → q ≠ Phase.finished → s.slot = some j)
    {i : ℕ} {p : Phase} (hi : s.tasks[i]? = some p) (hp : p ≠ Phase.finished) :
    ∀ (j : ℕ) (q : Phase), s.tasks[j]? = some q → j ≠ i → q = Phase.finished := by
  intro j q hj hne
  by_contra hq
  have h1 := hI1 j q hj hq
  have h2 := hI1 i p hi hp
  exact hne (Option.some.inj (h1.symm.trans h2))

lemma no_holding_append {l : List Phase}
    (h : ∀ (j : ℕ) (q : Phase), l[j]? = some q → isHolding q = false)
    (j : ℕ) (q : Phase) (hj : (l ++ [Phase.pending])[j]? = some q) :
    isHolding q = false := by
  by_cases hjl : j < l.length
  · rw [List.getElem?_append_left hjl] at hj
    exact h j q hj
  · by_cases hje : j = l.length
    · subst hje
      rw [List.getElem?_concat_length] at hj
      injection hj with h2
      subst h2
      rfl
    · rw [List.getElem?_eq_none (by rw [List.length_append]; simp; omega)] at hj
      cases hj

lemma promoteFinish_locked (s : MSState) (i : ℕ) : (promoteFinish s i).locked = false := by
  rw [promoteFinish]; split <;> rfl

lemma promoteFinish_batches (s : MSState) (i : ℕ) :
    (promoteFinish s i).batches = s.batches := by
  rw [promoteFinish]; split <;> rfl

lemma promoteFinish_routed (s : MSState) (i : ℕ) :
    (promoteFinish s i).routed = s.routed := by
  rw [promoteFinish]; split <;> rfl

lemma promoteFinish_mood (s : MSState) (i : ℕ) : (promoteFinish s i).mood = s.mood := by
  rw [promoteFinish]; split <;> rfl

lemma promoteFinish_pools (s : MSState) (i : ℕ) (m : ℕ) (h : m ∈ s.acc ∨ m ∈ s.bg) :
    m ∈ (promoteFinish s i).acc ∨ m ∈ (promoteFinish s i).bg := by
  rw [promoteFinish]; split
  · exact h
  · left
    rcases h with h | h
    · exact List.mem_append_left _ h
    · exact List.mem_append_right _ h

lemma promoteFinish_task_inv (s : MSState) (i : ℕ) (p : Phase)
    (hi : s.tasks[i]? = some p) (hp : p ≠ Phase.finished)
    (hI1 : ∀ (j : ℕ) (q : Phase), s.tasks[j]? = some q → q ≠ Phase.finished → s.slot = some j) :
    (∀ (j : ℕ) (q : Phase), (promoteFinish s i).tasks[j]? = some q → q ≠ Phase.finished →
      (promoteFinish s i).slot = some j) ∧
    (∀ (j : ℕ) (q : Phase), (promoteFinish s i).tasks[j]? = some q → isHolding q = false) := by
  have hlen := getElem?_lt_length hi
  have huniq := uniq_nonfinished hI1 hi hp
  rw [promoteFinish]
  split
  · constructor
    · intro j q hj hq
      exfalso
      by_cases hji : j = i
      · subst hji
        rw [List.getElem?_set_self hlen] at hj
        exact hq (Option.some.inj hj).symm
      · rw [List.getElem?_set_ne (fun h2 => hji h2.symm)] at hj
        exact hq (huniq j q hj hji)
    · intro j q hj
      by_cases hji : j = i
      · subst hji
        rw [List.getElem?_set_self hlen] at hj
        rw [← Option.some.inj hj]
        rfl
      · rw [List.getElem?_set_ne (fun h2 => hji h2.symm)] at hj
        rw [huniq j q hj hji]
        rfl
  · constructor
    · intro j q hj hq
      by_cases hjl : j < s.tasks.length
      · exfalso
        rw [List.getElem?_append_left (by rw [List.length_set]; exact hjl)] at hj
        by_cases hji : j = i
        · subst hji
          rw [List.getElem?_set_self hlen] at hj
          exact hq (Option.some.inj hj).symm
        · rw [List.getElem?_set_ne (fun h2 => hji h2.symm)] at hj
          exact hq (huniq j q hj hji)
      · by_cases hje : j = s.tasks.length
        · subst hje
          rfl
        · exfalso
          rw [List.getElem?_eq_none
            (by rw [List.length_append, List.length_set]; simp; omega)] at hj
          cases hj
    · intro j q hj
      by_cases hjl : j < s.tasks.length
      · rw [List.getElem?_append_left (by rw [List.length_set]; exact hjl)] at hj
        by_cases hji : j = i
        · subst hji
          rw [List.getElem?_set_self hlen] at hj
          rw [← Option.some.inj hj]
          rfl
        · rw [List.getElem?_set_ne (fun h2 => hji h2.symm)] at hj
          rw [huniq j q hj hji]
          rfl
      · by_cases hje : j = s.tasks.length
        · subst hje
          rw [show s.tasks.length = (s.tasks.set i Phase.finished).length from
                (List.length_set s.tasks i Phase.finished).symm,
              List.getElem?_concat_length] at hj
          rw [← Option.some.inj hj]
          rfl
        · rw [List.getElem?_eq_none
            (by rw [List.length_append, List.length_set]; simp; omega)] at hj
          cases hj

lemma minv_init : MInv msInit := by
  refine ⟨?_, ?_, ?_, ?_⟩ <;> simp [msInit]

lemma minv_step {l : MLbl} {s s2 : MSState} (hinv : MInv s) (hstep : MStep l s s2) :
    MInv s2 := by
  obtain ⟨hI1, hI2, hI3, hI4⟩ := hinv
  cases hstep with
  | dispatchBusy s m hl =>
      refine ⟨hI1, ?_, ?_, ?_⟩
      · intro h2
        have h3 : s.locked = false := h2
        rw [hl] at h3
        exact Bool.noConfusion h3
      · intro m2 hm
        have hm2 : m2 ∈ s.routed ++ [m] := hm
        show m2 ∈ s.acc ∨ m2 ∈ s.bg ++ [m] ∨ ∃ b, b ∈ s.batches ∧ m2 ∈ b
        rcases List.mem_append.mp hm2 with h | h
        · rcases hI3 m2 h with h3 | h3 | h3
          · exact Or.inl h3
          · exact Or.inr (Or.inl (List.mem_append_left _ h3))
          · exact Or.inr (Or.inr h3)
        · exact Or.inr (Or.inl (List.mem_append_right _ h))
      · intro hex m2 hm
        exact hI4 hex m2 hm
  | dispatchIdleNoSpawn s m hl hsb =>
      refine ⟨hI1, ?_, ?_, ?_⟩
      · intro _ i p hp
        exact hI2 hl i p hp
      · intro m2 hm
        have hm2 : m2 ∈ s.routed ++ [m] := hm
        show m2 ∈ s.acc ++ [m] ∨ m2 ∈ s.bg ∨ ∃ b, b ∈ s.batches ∧ m2 ∈ b
        rcases List.mem_append.mp hm2 with h | h
        · rcases hI3 m2 h with h3 | h3 | h3
          · exact Or.inl (List.mem_append_left _ h3)
          · exact Or.inr (Or.inl h3)
          · exact Or.inr (Or.inr h3)
        · exact Or.inl (List.mem_append_right _ h)
      · intro hex
        exfalso
        rcases hex with ⟨i, hi | hi⟩
        · have := hI2 hl i _ hi
          simp [isHolding] at this
        · have := hI2 hl i _ hi
          simp [isHolding] at this
  | dispatchIdleSpawn s m hl hsb =>
      refine ⟨?_, ?_, ?_, ?_⟩
      · intro j q hj hq
        have hj2 : (s.tasks ++ [Phase.pending])[j]? = some q := hj
        by_cases hjl : j < s.tasks.length
        · exfalso
          rw [List.getElem?_append_left hjl] at hj2
          have h1 := hI1 j q hj2 hq
          rcases slotBusy_eq_false hsb with h2 | ⟨k, h2, h3⟩
          · rw [h1] at h2
            cases h2
          · have h4 := Option.some.inj (h1.symm.trans h2)
            subst h4
            rw [hj2] at h3
            exact hq (Option.some.inj h3)
        · by_cases hje : j = s.tasks.length
          · show some s.tasks.length = some j
            rw [hje]
          · exfalso
            rw [List.getElem?_eq_none (by rw [List.length_append]; simp; omega)] at hj2
            cases hj2
      · intro _ j q hj
        exact no_holding_append (hI2 hl) j q hj
      · intro m2 hm
        have hm2 : m2 ∈ s.routed ++ [m] := hm
        show m2 ∈ s.acc ++ [m] ∨ m2 ∈ s.bg ∨ ∃ b, b ∈ s.batches ∧ m2 ∈ b
        rcases List.mem_append.mp hm2 with h | h
        · rcases hI3 m2 h with h3 | h3 | h3
          · exact Or.inl (List.mem_append_left _ h3)
          · exact Or.inr (Or.inl h3)
          · exact Or.inr (Or.inr h3)
        · exact Or.inl (List.mem_append_right _ h)
      · intro hex
        exfalso
        rcases hex with ⟨i, hi | hi⟩
        · have := no_holding_append (hI2 hl) i _ hi
          simp [isHolding] at this
        · have := no_holding_append (hI2 hl) i _ hi
          simp [isHolding] at this
  | emotionStep s v =>
      exact ⟨hI1, hI2, hI3, hI4⟩
  | startStep s i hp hl =>
      have hlen := getElem?_lt_length hp
      refine ⟨?_, ?_, hI3, ?_⟩
      · intro j q hj hq
        have hj2 : (s.tasks.set i Phase.sleeping)[j]? = some q := hj
        by_cases hji : j = i
        · subst hji
          exact hI1 j _ hp (by decide)
        · rw [List.getElem?_set_ne (fun h2 => hji h2.symm)] at hj2
          exact hI1 j q hj2 hq
      · intro h2
        have h3 : true = false := h2
        exact Bool.noConfusion h3
      · intro hex
        exfalso
        rcases hex with ⟨j, hj | hj⟩
        · by_cases hji : j = i
          · subst hji
            have hj2 : (s.tasks.set j Phase.sleeping)[j]? = some Phase.thinking := hj
            rw [List.getElem?_set_self hlen] at hj2
            exact absurd (Option.some.inj hj2) (by decide)
          · have hj2 : (s.tasks.set i Phase.sleeping)[j]? = some Phase.thinking := hj
            rw [List.getElem?_set_ne (fun h2 => hji h2.symm)] at hj2
            have := hI2 hl j _ hj2
            simp [isHolding] at this
        · by_cases hji : j = i
          · subst hji
            have hj2 : (s.tasks.set j Phase.sleeping)[j]? = some Phase.replying := hj
            rw [List.getElem?_set_self hlen] at hj2
            exact absurd (Option.some.inj hj2) (by decide)
          · have hj2 : (s.tasks.set i Phase.sleeping)[j]? = some Phase.replying := hj
            rw [List.getElem?_set_ne (fun h2 => hji h2.symm)] at hj2
            have := hI2 hl j _ hj2
            simp [isHolding] at this
  | wakeEmpty s i hp hacc =>
      have hlen := getElem?_lt_length hp
      have huniq := uniq_nonfinished hI1 hp (by decide)
      refine ⟨?_, ?_, hI3, ?_⟩
      · intro j q hj hq
        exfalso
        have hj2 : (s.tasks.set i Phase.finished)[j]? = some q := hj
        by_cases hji : j = i
        · subst hji
          rw [List.getElem?_set_self hlen] at hj2
          exact hq (Option.some.inj hj2).symm
        · rw [List.getElem?_set_ne (fun h2 => hji h2.symm)] at hj2
          exact hq (huniq j q hj2 hji)
      · intro _ j q hj
        have hj2 : (s.tasks.set i Phase.finished)[j]? = some q := hj
        by_cases hji : j = i
        · subst hji
          rw [List.getElem?_set_self hlen] at hj2
          rw [← Option.some.inj hj2]
          rfl
        · rw [List.getElem?_set_ne (fun h2 => hji h2.symm)] at hj2
          rw [huniq j q hj2 hji]
          rfl
      · intro _ m2 hm
        have hm2 : m2 ∈ s.acc := hm
        rw [hacc] at hm2
        cases hm2
  | wakeBatch s i hp hacc =>
      have hlen := getElem?_lt_length hp
      refine ⟨?_, ?_, ?_, ?_⟩
      · intro j q hj hq
        have hj2 : (s.tasks.set i Phase.thinking)[j]? = some q := hj
        by_cases hji : j = i
        · subst hji
          exact hI1 j _ hp (by decide)
        · rw [List.getElem?_set_ne (fun h2 => hji h2.symm)] at hj2
          exact hI1 j q hj2 hq
      · intro h2
        exfalso
        have := hI2 h2 i _ hp
        simp [isHolding] at this
      · intro m2 hm
        show m2 ∈ s.acc ∨ m2 ∈ s.bg ∨ ∃ b, b ∈ s.batches ++ [s.acc] ∧ m2 ∈ b
        rcases hI3 m2 hm with h | h | ⟨b, hb, hmb⟩
        · exact Or.inl h
        · exact Or.inr (Or.inl h)
        · exact Or.inr (Or.inr ⟨b, List.mem_append_left _ hb, hmb⟩)
      · intro _ m2 hm
        exact ⟨s.acc, List.mem_append_right _ (by simp), hm⟩
  | thinkReply s i v hp =>
      have hlen := getElem?_lt_length hp
      refine ⟨?_, ?_, ?_, ?_⟩
      · intro j q hj hq
        have hj2 : (s.tasks.set i Phase.replying)[j]? = some q := hj
        by_cases hji : j = i
        · subst hji
          exact hI1 j _ hp (by decide)
        · rw [List.getElem?_set_ne (fun h2 => hji h2.symm)] at hj2
          exact hI1 j q hj2 hq
      · intro h2
        exfalso
        have := hI2 h2 i _ hp
        simp [isHolding] at this
      · intro m2 hm
        show m2 ∈ ([] : List ℕ) ∨ m2 ∈ s.bg ∨ ∃ b, b ∈ s.batches ∧ m2 ∈ b
        rcases hI3 m2 hm with h | h | h3
        · exact Or.inr (Or.inr (hI4 ⟨i, Or.inl hp⟩ m2 h))
        · exact Or.inr (Or.inl h)
        · exact Or.inr (Or.inr h3)
      · intro _ m2 hm
        have hm2 : m2 ∈ ([] : List ℕ) := hm
        cases hm2
  | thinkWait s i v hp =>
      have hlen := getElem?_lt_length hp
      have huniq := uniq_nonfinished hI1 hp (by decide)
      refine ⟨?_, ?_, hI3, ?_⟩
      · intro j q hj hq
        have hj2 : (s.tasks.set i Phase.waitSleeping)[j]? = some q := hj
        by_cases hji : j = i
        · subst hji
          exact hI1 j _ hp (by decide)
        · rw [List.getElem?_set_ne (fun h2 => hji h2.symm)] at hj2
          exact hI1 j q hj2 hq
      · intro h2
        exfalso
        have := hI2 h2 i _ hp
        simp [isHolding] at this
      · intro hex
        exfalso
        rcases hex with ⟨j, hj | hj⟩
        · by_cases hji : j = i
          · subst hji
            have hj2 : (s.tasks.set j Phase.waitSleeping)[j]? = some Phase.thinking := hj
            rw [List.getElem?_set_self hlen] at hj2
            exact absurd (Option.some.inj hj2) (by decide)
          · have hj2 : (s.tasks.set i Phase.waitSleeping)[j]? = some Phase.thinking := hj
            rw [List.getElem?_set_ne (fun h2 => hji h2.symm)] at hj2
            exact absurd (huniq j _ hj2 hji) (by decide)
        · by_cases hji : j = i
          · subst hji
            have hj2 : (s.tasks.set j Phase.waitSleeping)[j]? = some Phase.replying := hj
            rw [List.getElem?_set_self hlen] at hj2
            exact absurd (Option.some.inj hj2) (by decide)
          · have hj2 : (s.tasks.set i Phase.waitSleeping)[j]? = some Phase.replying := hj
            rw [List.getElem?_set_ne (fun h2 => hji h2.symm)] at hj2
            exact absurd (huniq j _ hj2 hji) (by decide)
  | thinkComplete s i v hp =>
      have hpt := promoteFinish_task_inv { s with mood := v, acc := ([] : List ℕ) } i
        Phase.thinking hp (by decide) hI1
      refine ⟨hpt.1, fun _ j q hj => hpt.2 j q hj, ?_, ?_⟩
      · intro m2 hm
        have hm2 : m2 ∈ s.routed := by
          rwa [promoteFinish_routed] at hm
        rcases hI3 m2 hm2 with h | h | ⟨b, hb, hmb⟩
        · have h4 := hI4 ⟨i, Or.inl hp⟩ m2 h
          rw [promoteFinish_batches]
          exact Or.inr (Or.inr h4)
        · rcases promoteFinish_pools { s with mood := v, acc := ([] : List ℕ) } i m2
            (Or.inr h) with h5 | h5
          · exact Or.inl h5
          · exact Or.inr (Or.inl h5)
        · rw [promoteFinish_batches]
          exact Or.inr (Or.inr ⟨b, hb, hmb⟩)
      · intro hex
        exfalso
        rcases hex with ⟨j, hj | hj⟩
        · have := hpt.2 j _ hj
          simp [isHolding] at this
        · have := hpt.2 j _ hj
          simp [isHolding] at this
  | thinkIgnore s i v hp =>
      have hpt := promoteFinish_task_inv { s with mood := v, acc := ([] : List ℕ) } i
        Phase.thinking hp (by decide) hI1
      refine ⟨hpt.1, fun _ j q hj => hpt.2 j q hj, ?_, ?_⟩
      · intro m2 hm
        have hm2 : m2 ∈ s.routed := by
          rwa [promoteFinish_routed] at hm
        rcases hI3 m2 hm2 with h | h | ⟨b, hb, hmb⟩
        · have h4 := hI4 ⟨i, Or.inl hp⟩ m2 h
          rw [promoteFinish_batches]
          exact Or.inr (Or.inr h4)
        · rcases promoteFinish_pools { s with mood := v, acc := ([] : List ℕ) } i m2
            (Or.inr h) with h5 | h5
          · exact Or.inl h5
          · exact Or.inr (Or.inl h5)
        · rw [promoteFinish_batches]
          exact Or.inr (Or.inr ⟨b, hb, hmb⟩)
      · intro hex
        exfalso
        rcases hex with ⟨j, hj | hj⟩
        · have := hpt.2 j _ hj
          simp [isHolding] at this
        · have := hpt.2 j _ hj
          simp [isHolding] at this
  | thinkOther s i a v hp ha1 ha2 ha3 ha4 =>
      have hpt := promoteFinish_task_inv { s with mood := v } i
        Phase.thinking hp (by decide) hI1
      refine ⟨hpt.1, fun _ j q hj => hpt.2 j q hj, ?_, ?_⟩
      · intro m2 hm
        have hm2 : m2 ∈ s.routed := by
          rwa [promoteFinish_routed] at hm
        rcases hI3 m2 hm2 with h | h | ⟨b, hb, hmb⟩
        · rcases promoteFinish_pools { s with mood := v } i m2 (Or.inl h) with h5 | h5
          · exact Or.inl h5
          · exact Or.inr (Or.inl h5)
        · rcases promoteFinish_pools { s with mood := v } i m2 (Or.inr h) with h5 | h5
          · exact Or.inl h5
          · exact Or.inr (Or.inl h5)
        · rw [promoteFinish_batches]
          exact Or.inr (Or.inr ⟨b, hb, hmb⟩)
      · intro hex
        exfalso
        rcases hex with ⟨j, hj | hj⟩
        · have := hpt.2 j _ hj
          simp [isHolding] at this
        · have := hpt.2 j _ hj
          simp [isHolding] at this
  | thinkFailStep s i hp =>
      have hlen := getElem?_lt_length hp
      have huniq := uniq_nonfinished hI1 hp (by decide)
      refine ⟨?_, ?_, hI3, ?_⟩
      · intro j q hj hq
        exfalso
        have hj2 : (s.tasks.set i Phase.finished)[j]? = some q := hj
        by_cases hji : j = i
        · subst hji
          rw [List.getElem?_set_self hlen] at hj2
          exact hq (Option.some.inj hj2).symm
        · rw [List.getElem?_set_ne (fun h2 => hji h2.symm)] at hj2
          exact hq (huniq j q hj2 hji)
      · intro _ j q hj
        have hj2 : (s.tasks.set i Phase.finished)[j]? = some q := hj
        by_cases hji : j = i
        · subst hji
          rw [List.getElem?_set_self hlen] at hj2
          rw [← Option.some.inj hj2]
          rfl
        · rw [List.getElem?_set_ne (fun h2 => hji h2.symm)] at hj2
          rw [huniq j q hj2 hji]
          rfl
      · intro hex
        exfalso
        rcases hex with ⟨j, hj | hj⟩
        · by_cases hji : j = i
          · subst hji
            have hj2 : (s.tasks.set j Phase.finished)[j]? = some Phase.thinking := hj
            rw [List.getElem?_set_self hlen] at hj2
            exact absurd (Option.some.inj hj2) (by decide)
          · have hj2 : (s.tasks.set i Phase.finished)[j]? = some Phase.thinking := hj
            rw [List.getElem?_set_ne (fun h2 => hji h2.symm)] at hj2
            exact absurd (huniq j _ hj2 hji) (by decide)
        · by_cases hji : j = i
          · subst hji
            have hj2 : (s.tasks.set j Phase.finished)[j]? = some Phase.replying := hj
            rw [List.getElem?_set_self hlen] at hj2
            exact absurd (Option.some.inj hj2) (by decide)
          · have hj2 : (s.tasks.set i Phase.finished)[j]? = some Phase.replying := hj
            rw [List.getElem?_set_ne (fun h2 => hji h2.symm)] at hj2
            exact absurd (huniq j _ hj2 hji) (by decide)
  | replyRetStep s i v hp =>
      have hpt := promoteFinish_task_inv { s with mood := v } i
        Phase.replying hp (by decide) hI1
      refine ⟨hpt.1, fun _ j q hj => hpt.2 j q hj, ?_, ?_⟩
      · intro m2 hm
        have hm2 : m2 ∈ s.routed := by
          rwa [promoteFinish_routed] at hm
        rcases hI3 m2 hm2 with h | h | ⟨b, hb, hmb⟩
        · rcases promoteFinish_pools { s with mood := v } i m2 (Or.inl h) with h5 | h5
          · exact Or.inl h5
          · exact Or.inr (Or.inl h5)
        · rcases promoteFinish_pools { s with mood := v } i m2 (Or.inr h) with h5 | h5
          · exact Or.inl h5
          · exact Or.inr (Or.inl h5)
        · rw [promoteFinish_batches]
          exact Or.inr (Or.inr ⟨b, hb, hmb⟩)
      · intro hex
        exfalso
        rcases hex with ⟨j, hj | hj⟩
        · have := hpt.2 j _ hj
          simp [isHolding] at this
        · have := hpt.2 j _ hj
          simp [isHolding] at this
  | replyFailStep s i hp =>
      have hlen := getElem?_lt_length hp
      have huniq := uniq_nonfinished hI1 hp (by decide)
      refine ⟨?_, ?_, hI3, ?_⟩
      · intro j q hj hq
        exfalso
        have hj2 : (s.tasks.set i Phase.finished)[j]? = some q := hj
        by_cases hji : j = i
        · subst hji
          rw [List.getElem?_set_self hlen] at hj2
          exact hq (Option.some.inj hj2).symm
        · rw [List.getElem?_set_ne (fun h2 => hji h2.symm)] at hj2
          exact hq (huniq j q hj2 hji)
      · intro _ j q hj
        have hj2 : (s.tasks.set i Phase.finished)[j]? = some q := hj
        by_cases hji : j = i
        · subst hji
          rw [List.getElem?_set_self hlen] at hj2
          rw [← Option.some.inj hj2]
          rfl
        · rw [List.getElem?_set_ne (fun h2 => hji h2.symm)] at hj2
          rw [huniq j q hj2 hji]
          rfl
      · intro hex
        exfalso
        rcases hex with ⟨j, hj | hj⟩
        · by_cases hji : j = i
          · subst hji
            have hj2 : (s.tasks.set j Phase.finished)[j]? = some Phase.thinking := hj
            rw [List.getElem?_set_self hlen] at hj2
            exact absurd (Option.some.inj hj2) (by decide)
          · have hj2 : (s.tasks.set i Phase.finished)[j]? = some Phase.thinking := hj
            rw [List.getElem?_set_ne (fun h2 => hji h2.symm)] at hj2
            exact absurd (huniq j _ hj2 hji) (by decide)
        · by_cases hji : j = i
          · subst hji
            have hj2 : (s.tasks.set j Phase.finished)[j]? = some Phase.replying := hj
            rw [List.getElem?_set_self hlen] at hj2
            exact absurd (Option.some.inj hj2) (by decide)
          · have hj2 : (s.tasks.set i Phase.finished)[j]? = some Phase.replying := hj
            rw [List.getElem?_set_ne (fun h2 => hji h2.symm)] at hj2
            exact absurd (huniq j _ hj2 hji) (by decide)
  | waitWakeStep s i hp =>
      have hpt := promoteFinish_task_inv s i Phase.waitSleeping hp (by decide) hI1
      refine ⟨hpt.1, fun _ j q hj => hpt.2 j q hj, ?_, ?_⟩
      · intro m2 hm
        have hm2 : m2 ∈ s.routed := by
          rwa [promoteFinish_routed] at hm
        rcases hI3 m2 hm2 with h | h | ⟨b, hb, hmb⟩
        · rcases promoteFinish_pools s i m2 (Or.inl h) with h5 | h5
          · exact Or.inl h5
          · exact Or.inr (Or.inl h5)
        · rcases promoteFinish_pools s i m2 (Or.inr h) with h5 | h5
          · exact Or.inl h5
          · exact Or.inr (Or.inl h5)
        · rw [promoteFinish_batches]
          exact Or.inr (Or.inr ⟨b, hb, hmb⟩)
      · intro hex
        exfalso
        rcases hex with ⟨j, hj | hj⟩
        · have := hpt.2 j _ hj
          simp [isHolding] at this
        · have := hpt.2 j _ hj
          simp [isHolding] at this

lemma reach_minv {s : MSState} (h : MReach s) : MInv s := by
  induction h with
  | init => exact minv_init
  | step _ hstep ih => exact minv_step ih hstep

/-! ## Claims about the MindScheduler system -/

/-- C1: single-flight.  In every reachable state at most one loop task is
inside the locked region (the cycle states Open/Waiting/Closing), and a cycle
only starts — a task enters the `async with` — when the session lock is free
and every other loop task of the session is done, so per-session cycles are
strictly sequential. -/
theorem single_flight (s : MSState) (h : MReach s) :
    (∀ (i j : ℕ) (pi pj : Phase), s.tasks[i]? = some pi → s.tasks[j]? = some pj →
      isHolding pi = true → isHolding pj = true → i = j) ∧
    (∀ (s2 : MSState) (i : ℕ), MStep (.start i) s s2 →
      s.locked = false ∧
      ∀ (j : ℕ), j ≠ i → ∀ (p : Phase), s.tasks[j]? = some p → p = Phase.finished) := by
  obtain ⟨hI1, hI2, hI3, hI4⟩ := reach_minv h
  constructor
  · intro i j pi pj hi hj hpi hpj
    have h1 := hI1 i pi hi (holding_ne_finished hpi)
    have h2 := hI1 j pj hj (holding_ne_finished hpj)
    exact Option.some.inj (h1.symm.trans h2)
  · intro s2 i hstep
    cases hstep with
    | startStep _ _ hp hl =>
        refine ⟨hl, ?_⟩
        intro j hne p hj
        exact uniq_nonfinished hI1 hp (by decide) j p hj hne

/-- The session state after one admitted message was dispatched into an idle
session: one pending loop task recorded in active_loops. -/
def msS1 : MSState :=
  { locked := false, mood := 0, acc := [1], bg := [], tasks := [Phase.pending],
    slot := some 0, batches := [], routed := [1] }

lemma msS1_reach : MReach msS1 :=
  MReach.step MReach.init (MStep.dispatchIdleSpawn msInit 1 rfl rfl)

/-- Witness for C1 at the reachable state `msS1`. -/
theorem single_flight_witness :
    (∀ (i j : ℕ) (pi pj : Phase), msS1.tasks[i]? = some pi → msS1.tasks[j]? = some pj →
      isHolding pi = true → isHolding pj = true → i = j) ∧
    (∀ (s2 : MSState) (i : ℕ), MStep (.start i) msS1 s2 →
      msS1.locked = false ∧
      ∀ (j : ℕ), j ≠ i → ∀ (p : Phase), msS1.tasks[j]? = some p → p = Phase.finished) :=
  single_flight msS1 msS1_reach

/-- The state reached by: message 1 starts a cycle, message 2 is deferred to
the background buffer during it, the think step returns WAIT (keeping the
pool), the cycle finishes promoting the background buffer, and the next cycle
emits its batch: message 1 is in both emitted batches. -/
def msDupState : MSState :=
  { locked := true, mood := 0, acc := [1, 2], bg := [],
    tasks := [Phase.finished, Phase.thinking], slot := some 1,
    batches := [[1], [1, 2]], routed := [1, 2] }

lemma msDupState_reach : MReach msDupState := by
  have h1 := MReach.step MReach.init (MStep.dispatchIdleSpawn msInit 1 rfl rfl)
  have h2 := MReach.step h1 (MStep.startStep _ 0 rfl rfl)
  have h3 := MReach.step h2 (MStep.dispatchBusy _ 2 rfl)
  have h4 := MReach.step h3 (MStep.wakeBatch _ 0 rfl (by decide))
  have h5 := MReach.step h4 (MStep.thinkWait _ 0 0 rfl)
  have h6 := MReach.step h5 (MStep.waitWakeStep _ 0 rfl)
  have h7 := MReach.step h6 (MStep.startStep _ 1 rfl rfl)
  exact MReach.step h7 (MStep.wakeBatch _ 1 rfl (by decide))

/-- C2 counterexample: an admitted message can appear in two generator batches.
A WAIT decision keeps the accumulation pool (mind_scheduler.py lines 178-199),
so its messages are re-batched by the next cycle: in the reachable state
`msDupState` message 1 occurs in both emitted batches. -/
theorem message_in_two_batches :
    MReach msDupState ∧ 1 ∈ msDupState.routed ∧
    (msDupState.batches.filter (fun b => b.contains 1)).length = 2 :=
  ⟨msDupState_reach, by decide, by decide⟩

/-- C2 amended: no admitted message is ever silently dropped — in every
reachable state each routed message is still in one of the pools or already in
an emitted batch — and at a cycle end with a non-empty background buffer the
whole buffer is moved into the accumulation pool in one atomic block and a new
loop task is created; but exactly-once fails: after a WAIT decision the kept
pool is batched again (see the counterexample). -/
theorem no_silent_loss (s : MSState) (h : MReach s) :
    (∀ m : ℕ, m ∈ s.routed → m ∈ s.acc ∨ m ∈ s.bg ∨ ∃ b, b ∈ s.batches ∧ m ∈ b) ∧
    (∀ i : ℕ, s.bg ≠ [] →
      (promoteFinish s i).acc = s.acc ++ s.bg ∧ (promoteFinish s i).bg = [] ∧
      (promoteFinish s i).tasks[s.tasks.length]? = some Phase.pending ∧
      (promoteFinish s i).slot = some s.tasks.length) := by
  obtain ⟨hI1, hI2, hI3, hI4⟩ := reach_minv h
  refine ⟨hI3, ?_⟩
  intro i hbg
  rw [promoteFinish, if_neg (by simpa [List.isEmpty_iff] using hbg)]
  refine ⟨rfl, rfl, ?_, rfl⟩
  have hlen : s.tasks.length = (s.tasks.set i Phase.finished).length :=
    (List.length_set s.tasks i Phase.finished).symm
  rw [hlen, List.getElem?_concat_length]

/-- Witness for C2 amended at the reachable state `msDupState`: message 1 is
accounted for (here: still in the accumulation pool, among other places). -/
theorem no_silent_loss_witness :
    1 ∈ msDupState.acc ∨ 1 ∈ msDupState.bg ∨ ∃ b, b ∈ msDupState.batches ∧ 1 ∈ b :=
  (no_silent_loss msDupState msDupState_reach).1 1 (by decide)

/-- The state in which the only loop task awaits impulse.think with message 1
batched and message 2 deferred to the background buffer. -/
def msThinking : MSState :=
  { locked := true, mood := 0, acc := [1], bg := [2], tasks := [Phase.thinking],
    slot := some 0, batches := [[1]], routed := [1, 2] }

/-- The state after the generator call raised in `msThinking`. -/
def msFailState : MSState :=
  { locked := false, mood := 0, acc := [1], bg := [2], tasks := [Phase.finished],
    slot := some 0, batches := [[1]], routed := [1, 2] }

lemma msThinking_reach : MReach msThinking := by
  have h1 := MReach.step MReach.init (MStep.dispatchIdleSpawn msInit 1 rfl rfl)
  have h2 := MReach.step h1 (MStep.startStep _ 0 rfl rfl)
  have h3 := MReach.step h2 (MStep.dispatchBusy _ 2 rfl)
  exact MReach.step h3 (MStep.wakeBatch _ 0 rfl (by decide))

lemma msFailState_reach : MReach msFailState :=
  MReach.step msThinking_reach (MStep.thinkFailStep msThinking 0 rfl)

/-- C8 counterexample: after a generator failure the cycle is done (all tasks
finished, lock free) but the non-empty background buffer was not promoted — no
new loop task exists and the deferred message 2 is in no batch.  It is drained
only once a later message starts a new cycle, not "on the next iteration". -/
theorem failure_skips_promotion :
    MReach msFailState ∧ msFailState.bg = [2] ∧ msFailState.locked = false ∧
    (∀ p : Phase, p ∈ msFailState.tasks → p = Phase.finished) ∧
    ¬ ∃ b, b ∈ msFailState.batches ∧ 2 ∈ b :=
  ⟨msFailState_reach, rfl, rfl, by decide, by decide⟩

/-- C8 amended: a failure of the generator call (impulse.think) or of the reply
handling makes the cycle reach its end in one atomic block: the lock is
released, the task is marked done, mood and both pools and the emitted batches
are untouched — the session is never left locked — but the background buffer is
not promoted there; and in the attention gate the `finally` of the aggregation
task clears the owner and releases the lock on every exit, success or error. -/
theorem generator_failure_recovery
    (s s2 : MSState) (i : ℕ)
    (hstep : MStep (.thinkFail i) s s2 ∨ MStep (.replyFail i) s s2) :
    (s2.locked = false ∧ s2.mood = s.mood ∧ s2.acc = s.acc ∧ s2.bg = s.bg ∧
     s2.batches = s.batches ∧ s2.routed = s.routed ∧ s2.slot = s.slot ∧
     s2.tasks = s.tasks.set i Phase.finished) ∧
    (∀ (cap : ℕ) (g g2 : GState), GStep cap .finish g g2 →
      g2.owner = none ∧ g2.glocked = false) := by
  constructor
  · rcases hstep with h | h
    · cases h with
      | thinkFailStep _ _ hp => exact ⟨rfl, rfl, rfl, rfl, rfl, rfl, rfl, rfl⟩
    · cases h with
      | replyFailStep _ _ hp => exact ⟨rfl, rfl, rfl, rfl, rfl, rfl, rfl, rfl⟩
  · intro cap g g2 hg
    cases hg with
    | finishStep _ ht => exact ⟨rfl, rfl⟩
    | abortStep _ ht => exact ⟨rfl, rfl⟩

/-- Witness for C8 amended: the concrete failing think step from `msThinking`
to `msFailState`. -/
theorem generator_failure_recovery_witness :
    (msFailState.locked = false ∧ msFailState.mood = msThinking.mood ∧
     msFailState.acc = msThinking.acc ∧ msFailState.bg = msThinking.bg ∧
     msFailState.batches = msThinking.batches ∧ msFailState.routed = msThinking.routed ∧
     msFailState.slot = msThinking.slot ∧
     msFailState.tasks = msThinking.tasks.set 0 Phase.finished) ∧
    (∀ (cap : ℕ) (g g2 : GState), GStep cap .finish g g2 →
      g2.owner = none ∧ g2.glocked = false) :=
  generator_failure_recovery msThinking msFailState 0
    (Or.inl (MStep.thinkFailStep msThinking 0 rfl))
